import Mathlib

/-!
Shallow embedding of the core logic of the xauusd repository:

* `src/apps/frontend/src/views/HomeView.vue` — the chart state machine:
  the two `watch` handlers on the price refs and the `updateInterval`
  heartbeat callback, together with the three bounded series arrays
  (`chartData`, `buyData`, `sellData`), the last-known-price caches and
  the `maxDataPoints` ring cap.
* `src/apps/frontend/src/apis/price.ts` — `streamSymbol` (one
  `new EventSource` per call) and the degraded raw-string fallback of its
  message handler, and `pollOrderUntilComplete` (bounded poll loop).
* `src/apps/frontend/src/components/Order.vue` — `pollOrderStatus`
  (per-order dedup via the `pollingOrders` set) and the four portfolio
  metrics `totalBought` / `totalSold` / `netPosition` / `totalPnL`.
* `src/apps/frontend/src/components/OrderModal.vue` — `validateAmount`,
  `isFormValid`, `calculatedGoldAmount` and `handleSubmit`.
* `src/apps/frontend/src/stores/trading-control.ts` — the
  `TradingStatus` type (`online` / `pause` / `stop`).

Modelling conventions: JS numbers are rationals (`ℚ`), with `NumVal.nan`
for `NaN`; timestamps are naturals; a string price field of a feed payload
is abstracted to `Option ℚ` — `none` for an absent or falsy field, `some q`
for a truthy field whose `parseFloat` is `q`.  Fallible operations return
`Option`.
-/

namespace Xauusd

/-- `TradingStatus` from `stores/trading-control.ts`:
`online | pause | stop`. -/
inductive TradingStatus
  | online
  | pause
  | stop
deriving DecidableEq

/-- A JS numeric value: a rational or `NaN` (`parseFloat` of a missing
field). -/
inductive NumVal
  | num (q : ℚ)
  | nan
deriving DecidableEq

/-- `parseFloat` applied to an optionally-present price field: an absent
field parses to `NaN`. -/
def parseF : Option ℚ → NumVal
  | some q => NumVal.num q
  | none => NumVal.nan

/-- A value carried by the `goldSpotPrice` ref (`price.ts`): either a
parsed JSON payload (its `price` field, `none` when absent or falsy), or
the raw string forwarded by the `catch` branch of `streamSymbol`'s
`onmessage` handler after a JSON parse failure. -/
inductive SpotMsg
  | payload (price : Option ℚ)
  | raw (s : String)
deriving DecidableEq

/-- A value carried by the `gold96Price` ref: a parsed payload with
`buy_price` / `sell_price` fields, or the degraded raw string. -/
inductive Gold96Msg
  | payload (buyPrice : Option ℚ) (sellPrice : Option ℚ)
  | raw (s : String)
deriving DecidableEq

/-- `ChartData` from `HomeView.vue`: `{x: timestamp, y: value}`. -/
structure ChartData where
  x : ℕ
  y : NumVal
deriving DecidableEq

/-- `maxDataPoints` from `HomeView.vue`. -/
def maxDataPoints : ℕ := 200

/-- The chart-relevant reactive state of `HomeView.vue`: the three series
arrays and the three last-known-price caches. -/
structure HomeState where
  chartData : List ChartData
  buyData : List ChartData
  sellData : List ChartData
  lastSpotPrice : Option NumVal
  lastBuyPrice : Option NumVal
  lastSellPrice : Option NumVal
deriving DecidableEq

/-- The initial state of `HomeView.vue`: empty arrays, `null` caches. -/
def initHomeState : HomeState :=
  { chartData := [], buyData := [], sellData := [],
    lastSpotPrice := none, lastBuyPrice := none, lastSellPrice := none }

/-- The push-then-shift pattern used by every append site in
`HomeView.vue`: `arr.push(p); if (arr.length > maxDataPoints) arr.shift()`. -/
def pushCap (l : List ChartData) (p : ChartData) : List ChartData :=
  if maxDataPoints < (l ++ [p]).length then (l ++ [p]).tail else l ++ [p]

/-- The common tail of the `ONLINE` and `STOPPED` branches of
`watch(goldSpotPrice)` (HomeView.vue:161-177): push the new point, record
it as the last known spot price, shift when over capacity. -/
def appendSpot (s : HomeState) (ts : ℕ) (y : NumVal) : HomeState :=
  { s with chartData := pushCap s.chartData ⟨ts, y⟩, lastSpotPrice := some y }

/-- `watch(goldSpotPrice)` from `HomeView.vue:146-178`.  `status` is
`getTradingStatus('spot')`, `val` the new ref value, `ts` is `Date.now()`.
In `stop` the display value is forced to `0`; in `pause` the handler
returns before touching anything; online it returns unless `val` is truthy
with a truthy `price` field. -/
def watchGoldSpotPrice (status : TradingStatus) (val : Option SpotMsg)
    (ts : ℕ) (s : HomeState) : HomeState :=
  match status with
  | TradingStatus.stop => appendSpot s ts (NumVal.num 0)
  | TradingStatus.pause => s
  | TradingStatus.online =>
    match val with
    | some (SpotMsg.payload (some q)) => appendSpot s ts (NumVal.num q)
    | _ => s

/-- The common tail of the `ONLINE` and `STOPPED` branches of
`watch(gold96Price)` (HomeView.vue:201-229): push buy and sell points,
record last known prices, shift each array when over capacity. -/
def appendGold96 (s : HomeState) (ts : ℕ) (buyY sellY : NumVal) : HomeState :=
  { s with
      buyData := pushCap s.buyData ⟨ts, buyY⟩,
      sellData := pushCap s.sellData ⟨ts, sellY⟩,
      lastBuyPrice := some buyY,
      lastSellPrice := some sellY }

/-- `watch(gold96Price)` from `HomeView.vue:180-230`.  The online guard
tests only `!val || !val.buy_price`; `sell_price` is parsed without a
guard, so an absent `sell_price` yields a `NaN` sell point. -/
def watchGold96Price (status : TradingStatus) (val : Option Gold96Msg)
    (ts : ℕ) (s : HomeState) : HomeState :=
  match status with
  | TradingStatus.stop => appendGold96 s ts (NumVal.num 0) (NumVal.num 0)
  | TradingStatus.pause => s
  | TradingStatus.online =>
    match val with
    | some (Gold96Msg.payload (some bq) sp) =>
        appendGold96 s ts (NumVal.num bq) (parseF sp)
    | _ => s

/-- The heartbeat gate used for each series in the `updateInterval`
callback: `!lastDataPoint || timestamp - lastDataPoint.x >= 1000`
(truncated natural subtraction agrees with JS here: a negative JS
difference is `< 1000` and a truncated-to-zero one too). -/
def hbDue (l : List ChartData) (ts : ℕ) : Bool :=
  match l.getLast? with
  | none => true
  | some p => decide (1000 ≤ ts - p.x)

/-- Spot part of the `updateInterval` callback (HomeView.vue:250-266):
when a last spot price exists and the series is due, append the last
known price (or `0` when stopped).  The cache itself is not written. -/
def heartbeatSpot (spotStatus : TradingStatus) (ts : ℕ) (s : HomeState) :
    HomeState :=
  match s.lastSpotPrice with
  | none => s
  | some lastV =>
    if hbDue s.chartData ts then
      { s with
          chartData :=
            pushCap s.chartData
              ⟨ts, if spotStatus = TradingStatus.stop then NumVal.num 0
                   else lastV⟩ }
    else s

/-- Gold96 buy part of the `updateInterval` callback (HomeView.vue:269-285). -/
def heartbeatBuy (g96Status : TradingStatus) (ts : ℕ) (s : HomeState) :
    HomeState :=
  match s.lastBuyPrice with
  | none => s
  | some lastV =>
    if hbDue s.buyData ts then
      { s with
          buyData :=
            pushCap s.buyData
              ⟨ts, if g96Status = TradingStatus.stop then NumVal.num 0
                   else lastV⟩ }
    else s

/-- Gold96 sell part of the `updateInterval` callback (HomeView.vue:288-304). -/
def heartbeatSell (g96Status : TradingStatus) (ts : ℕ) (s : HomeState) :
    HomeState :=
  match s.lastSellPrice with
  | none => s
  | some lastV =>
    if hbDue s.sellData ts then
      { s with
          sellData :=
            pushCap s.sellData
              ⟨ts, if g96Status = TradingStatus.stop then NumVal.num 0
                   else lastV⟩ }
    else s

/-- The whole `updateInterval` callback (HomeView.vue:240-305): the spot,
buy and sell sections run in order within one timer tick. -/
def updateIntervalCallback (spotStatus g96Status : TradingStatus) (ts : ℕ)
    (s : HomeState) : HomeState :=
  heartbeatSell g96Status ts (heartbeatBuy g96Status ts
    (heartbeatSpot spotStatus ts s))

/-- One event hitting the `HomeView.vue` state: a spot tick, a gold96
tick, or one firing of the heartbeat timer.  Each carries the
trading-control status(es) read by the handler at that moment. -/
inductive HomeEvent
  | spotTick (status : TradingStatus) (val : Option SpotMsg) (ts : ℕ)
  | gold96Tick (status : TradingStatus) (val : Option Gold96Msg) (ts : ℕ)
  | heartbeat (spotStatus g96Status : TradingStatus) (ts : ℕ)

/-- Dispatch of one event to its handler. -/
def stepEvent : HomeEvent → HomeState → HomeState
  | HomeEvent.spotTick status val ts, s => watchGoldSpotPrice status val ts s
  | HomeEvent.gold96Tick status val ts, s => watchGold96Price status val ts s
  | HomeEvent.heartbeat spotStatus g96Status ts, s =>
      updateIntervalCallback spotStatus g96Status ts s

/-- Sequential processing of a list of events (the single-threaded event
loop: handlers never interleave). -/
def runEvents (events : List HomeEvent) (s : HomeState) : HomeState :=
  events.foldl (fun acc e => stepEvent e acc) s

/-- Name for one of the three per-symbol series of `HomeView.vue`. -/
inductive SeriesId
  | spotSeries
  | buySeries
  | sellSeries
deriving DecidableEq

/-- The data array backing a series. -/
def seriesData (s : HomeState) : SeriesId → List ChartData
  | SeriesId.spotSeries => s.chartData
  | SeriesId.buySeries => s.buyData
  | SeriesId.sellSeries => s.sellData

/-- The last-known-price cache backing a series. -/
def seriesLast (s : HomeState) : SeriesId → Option NumVal
  | SeriesId.spotSeries => s.lastSpotPrice
  | SeriesId.buySeries => s.lastBuyPrice
  | SeriesId.sellSeries => s.lastSellPrice

/-- The trading-control status governing a series: the spot series reads
the `spot` control, the buy and sell series read the `gold96` control. -/
def seriesStatus (spotStatus g96Status : TradingStatus) :
    SeriesId → TradingStatus
  | SeriesId.spotSeries => spotStatus
  | SeriesId.buySeries => g96Status
  | SeriesId.sellSeries => g96Status

/-- An event leaves a given series paused when the status it reads for
that series is `pause`; events of the other symbol are unconstrained. -/
def pausedFor (ser : SeriesId) : HomeEvent → Bool
  | HomeEvent.spotTick status _ _ =>
      ser != SeriesId.spotSeries || status == TradingStatus.pause
  | HomeEvent.gold96Tick status _ _ =>
      ser == SeriesId.spotSeries || status == TradingStatus.pause
  | HomeEvent.heartbeat spotStatus g96Status _ =>
      seriesStatus spotStatus g96Status ser == TradingStatus.pause

/-- Spot online guard outcome (`HomeView.vue:157`): true when
`!val || !val.price` holds, i.e. the handler returns without appending —
a `null` ref, a degraded raw string (whose `.price` is `undefined`), or a
payload without a truthy `price` field. -/
def spotGuardFails : Option SpotMsg → Bool
  | none => true
  | some (SpotMsg.raw _) => true
  | some (SpotMsg.payload none) => true
  | some (SpotMsg.payload (some _)) => false

/-- Gold96 online guard outcome (`HomeView.vue:194`): true when
`!val || !val.buy_price` holds. -/
def gold96GuardFails : Option Gold96Msg → Bool
  | none => true
  | some (Gold96Msg.raw _) => true
  | some (Gold96Msg.payload none _) => true
  | some (Gold96Msg.payload (some _) _) => false

/-! ## price.ts: streamSymbol -/

/-- `streamSymbol` from `price.ts:25-38`, viewed through the set of live
feed connections: every call unconditionally executes
`new EventSource(baseURL + "/stream/price/" + symbol)`, so one more
connection for `symbol` is open afterwards.  There is no registry lookup,
no reference counting and no reuse. -/
def streamSymbol (connections : List String) (symbol : String) :
    List String :=
  connections ++ [symbol]

/-- Number of open feed connections for a symbol. -/
def connCount (connections : List String) (symbol : String) : ℕ :=
  (connections.filter (fun c => c == symbol)).length

/-! ## Order data -/

/-- Order / transaction status (`price.ts` union
`pending | processing | completed | failed`). -/
inductive OrderStatus
  | pending
  | processing
  | completed
  | failed
deriving DecidableEq

/-- The terminal-state test of the poll loop (`price.ts:202`):
`status === "completed" || status === "failed"`. -/
def isFinalState (s : OrderStatus) : Bool :=
  s == OrderStatus.completed || s == OrderStatus.failed

/-- `TradingHistoryResponse` (`price.ts`), restricted to the fields the
modelled code reads; numeric fields are optional to model absent or
unparsable values. -/
structure TradingHistoryResponse where
  id : String
  status : OrderStatus
  quantity : Option ℚ
  pricePerUnit : Option ℚ
  totalAmount : Option ℚ
  fee : Option ℚ
deriving DecidableEq

/-- Observable trace of one run of `pollOrderUntilComplete`: the returned
response (`none` models the thrown timeout error), the number of status
fetches issued, and the number of sleeps taken. -/
structure PollTrace where
  result : Option TradingHistoryResponse
  fetches : ℕ
  sleeps : ℕ
deriving DecidableEq

/-- The `while (attempts < maxAttempts)` loop of `pollOrderUntilComplete`
(`price.ts:196-216`).  `responses j` is the response of the j-th status
fetch (the remote endpoint, indexed by attempt).  A terminal status
returns immediately; otherwise the loop sleeps when
`attempts < maxAttempts - 1` and retries. -/
def pollLoop (responses : ℕ → TradingHistoryResponse)
    (maxAttempts attempts fetches sleeps : ℕ) : PollTrace :=
  if attempts < maxAttempts then
    if isFinalState (responses attempts).status then
      { result := some (responses attempts), fetches := fetches + 1,
        sleeps := sleeps }
    else
      pollLoop responses maxAttempts (attempts + 1) (fetches + 1)
        (if attempts < maxAttempts - 1 then sleeps + 1 else sleeps)
  else
    { result := none, fetches := fetches, sleeps := sleeps }
termination_by maxAttempts - attempts

/-- `pollOrderUntilComplete` from `price.ts:189-219`: run the loop from
`attempts = 0`; falling out of the loop throws the timeout error
(modelled as `result = none`).  `interval` is the sleep duration in ms
(it does not affect the trace shape). -/
def pollOrderUntilComplete (responses : ℕ → TradingHistoryResponse)
    (interval maxAttempts : ℕ) : PollTrace :=
  pollLoop responses maxAttempts 0 0 0

/-! ## Order.vue: polling dedup and portfolio metrics -/

/-- Transaction type `buy | sell`. -/
inductive TxType
  | buy
  | sell
deriving DecidableEq

/-- `Transaction` from `utils` as used by `Order.vue`. -/
structure Transaction where
  id : String
  type : TxType
  amount : ℚ
  price : ℚ
  total : ℚ
  status : OrderStatus
  fee : ℚ
deriving DecidableEq

/-- Entry guard of `pollOrderStatus` (`Order.vue:162-168`): if the order
id is already in `pollingOrders`, return without starting a loop
(`false`); otherwise add it and start the loop (`true`). -/
def pollOrderStatusEnter (pollingOrders : List String) (orderId : String) :
    Bool × List String :=
  if orderId ∈ pollingOrders then (false, pollingOrders)
  else (true, pollingOrders ++ [orderId])

/-- The `finally` block of `pollOrderStatus` (`Order.vue:235`):
`pollingOrders.value.delete(orderId)`. -/
def pollOrderStatusExit (pollingOrders : List String) (orderId : String) :
    List String :=
  pollingOrders.filter (fun x => x != orderId)

/-- Two invocations of `pollOrderStatus` for the same order id, the second
arriving while the first is still inside its awaited poll loop (the only
interleaving the single-threaded event loop allows, since the guard and
the `add` run synchronously).  `loopEffect` is the effect of one complete
poll loop (poll, fetch detail, splice) on the shared `transactions` list.
Returns the number of loops that ran, the final shared `transactions`
list both callers observe, and the final `pollingOrders` set. -/
def pollTwiceConcurrent (pollingOrders : List String) (orderId : String)
    (loopEffect : List Transaction → List Transaction)
    (txs : List Transaction) : ℕ × List Transaction × List String :=
  let r1 := pollOrderStatusEnter pollingOrders orderId
  let r2 := pollOrderStatusEnter r1.2 orderId
  let loops := (if r1.1 then 1 else 0) + (if r2.1 then 1 else 0)
  let txs1 := if r1.1 then loopEffect txs else txs
  let txs2 := if r2.1 then loopEffect txs1 else txs1
  let p1 := if r1.1 then pollOrderStatusExit r2.2 orderId else r2.2
  let p2 := if r2.1 then pollOrderStatusExit p1 orderId else p1
  (loops, txs2, p2)

/-- `totalBought` computed (`Order.vue:94-98`): filter completed buys,
reduce over `amount`. -/
def totalBought (transactions : List Transaction) : ℚ :=
  (transactions.filter
      (fun t => t.type == TxType.buy && t.status == OrderStatus.completed)).foldl
    (fun sum t => sum + t.amount) 0

/-- `totalSold` computed (`Order.vue:100-104`). -/
def totalSold (transactions : List Transaction) : ℚ :=
  (transactions.filter
      (fun t => t.type == TxType.sell && t.status == OrderStatus.completed)).foldl
    (fun sum t => sum + t.amount) 0

/-- `netPosition` computed (`Order.vue:107-109`). -/
def netPosition (transactions : List Transaction) : ℚ :=
  totalBought transactions - totalSold transactions

/-- `totalPnL` computed (`Order.vue:112-122`). -/
def totalPnL (transactions : List Transaction) : ℚ :=
  let buys :=
    (transactions.filter
        (fun t => t.type == TxType.buy && t.status == OrderStatus.completed)).foldl
      (fun sum t => sum + t.total) 0
  let sells :=
    (transactions.filter
        (fun t => t.type == TxType.sell && t.status == OrderStatus.completed)).foldl
      (fun sum t => sum + t.total) 0
  sells - buys

/-- Spec-side restatement of `totalBought` in the spec's words: the sum of
`amount` over transactions with `side = BUY` and `status = completed`. -/
def specTotalBought (transactions : List Transaction) : ℚ :=
  ((transactions.filter
      (fun t => t.type == TxType.buy && t.status == OrderStatus.completed)).map
    (fun t => t.amount)).sum

/-- Spec-side restatement of `totalSold`. -/
def specTotalSold (transactions : List Transaction) : ℚ :=
  ((transactions.filter
      (fun t => t.type == TxType.sell && t.status == OrderStatus.completed)).map
    (fun t => t.amount)).sum

/-- Spec-side restatement of `totalPnL`: sum of `total` over completed
sells minus sum of `total` over completed buys. -/
def specTotalPnL (transactions : List Transaction) : ℚ :=
  ((transactions.filter
      (fun t => t.type == TxType.sell && t.status == OrderStatus.completed)).map
    (fun t => t.total)).sum -
  ((transactions.filter
      (fun t => t.type == TxType.buy && t.status == OrderStatus.completed)).map
    (fun t => t.total)).sum

/-! ## OrderModal.vue: validation and submission -/

/-- The `amount` form field (a string in the source): empty (falsy),
non-numeric (truthy but `parseFloat` gives `NaN`), or numeric with value
`q`. -/
inductive AmountInput
  | empty
  | nonNumeric (s : String)
  | num (q : ℚ)
deriving DecidableEq

/-- JS truthiness of the amount string: only the empty string is falsy. -/
def amountTruthy : AmountInput → Bool
  | AmountInput.empty => false
  | _ => true

/-- `parseFloat` of the amount string; `none` is `NaN`. -/
def parseAmount : AmountInput → Option ℚ
  | AmountInput.num q => some q
  | _ => none

/-- The distinct `amountError` messages `validateAmount` can set. -/
inductive AmountError
  | required
  | invalid
  | belowMin
  | insufficientBalance
  | insufficientGold
  | aboveMax
deriving DecidableEq

/-- The balance data read by `validateAmount`, flattened over the
`Balance` / `Portfolio` union: `maxAvailable` is `available_balance` or
`balance`, `goldAvailable` is `gold_holdings` or `holdings.gold96_baht`. -/
structure BalanceInfo where
  maxAvailable : ℚ
  goldAvailable : ℚ
deriving DecidableEq

/-- `currentMarketPrice` (`OrderModal.vue:39-45`): present only when the
`gold96Price` ref holds a payload with a truthy `buy_price`. -/
structure MarketPrice where
  buy : ℚ
  sell : ℚ
deriving DecidableEq

/-- `calculatedGoldAmount` (`OrderModal.vue:47-53`): `0` when the amount
string is falsy or no market price is available, otherwise
`amountBaht / pricePerOz`.  JS division by zero gives `Infinity` and
`parseFloat` of a junk string gives `NaN`, while `ℚ` division by zero
gives `0`; every theorem below is insensitive to this difference (both
semantics yield some validation error in each proved case). -/
def calculatedGoldAmount (orderType : TxType)
    (marketPrice : Option MarketPrice) (amount : AmountInput) : ℚ :=
  if amountTruthy amount = false then 0
  else
    match marketPrice with
    | none => 0
    | some mp =>
      match parseAmount amount with
      | none => 0
      | some amountBaht =>
        let pricePerOz := if orderType = TxType.buy then mp.buy else mp.sell
        amountBaht / pricePerOz

/-- The buy-side balance check of `validateAmount`
(`OrderModal.vue:120-127`): fires only when a balance is loaded
(`balance.value` truthy) and the requested amount exceeds the available
balance. -/
def overBuyBalance (balance : Option BalanceInfo) (amountNum : ℚ) : Bool :=
  match balance with
  | some b => decide (b.maxAvailable < amountNum)
  | none => false

/-- The sell-side holdings check of `validateAmount`
(`OrderModal.vue:130-140`): fires only when a balance is loaded and the
implied gold quantity exceeds the held quantity. -/
def overGoldHolding (orderType : TxType) (balance : Option BalanceInfo)
    (marketPrice : Option MarketPrice) (amount : AmountInput) : Bool :=
  match balance with
  | some b =>
      decide (b.goldAvailable < calculatedGoldAmount orderType marketPrice amount)
  | none => false

/-- `validateAmount` (`OrderModal.vue:102-149`), returning the error set
into `amountError` (`none` when validation passes).  The checks run in
source order: required, numeric and positive, minimum 1000, buy-balance,
sell-gold, maximum 1000000 (the source nests the balance guards inside
`orderType`-equality conditionals; the flattened conjunctions here assign
the same error in the same cases). -/
def validateAmount (orderType : TxType) (balance : Option BalanceInfo)
    (marketPrice : Option MarketPrice) (amount : AmountInput) :
    Option AmountError :=
  if amountTruthy amount = false then some AmountError.required
  else
    match parseAmount amount with
    | none => some AmountError.invalid
    | some amountNum =>
      if amountNum ≤ 0 then some AmountError.invalid
      else if amountNum < 1000 then some AmountError.belowMin
      else if orderType = TxType.buy ∧ overBuyBalance balance amountNum then
        some AmountError.insufficientBalance
      else if orderType = TxType.sell ∧
          overGoldHolding orderType balance marketPrice amount then
        some AmountError.insufficientGold
      else if 1000000 < amountNum then some AmountError.aboveMax
      else none

/-- `isFormValid` (`OrderModal.vue:55-57`):
`amount.value && !amountError.value && parseFloat(amount.value) > 0`. -/
def isFormValid (amount : AmountInput) (amountError : Option AmountError) :
    Bool :=
  amountTruthy amount && amountError.isNone &&
    (match parseAmount amount with
     | some q => decide (0 < q)
     | none => false)

/-- `TradeRequest` from `order.ts`. -/
structure TradeRequest where
  symbol : String
  amount : ℚ
deriving DecidableEq

/-- `handleSubmit` (`OrderModal.vue:152-197`) up to its first network
call: returns the `TradeRequest` it posts, or `none` when the early
`if (!isFormValid.value || !currentMarketPrice.value) return` fires, in
which case zero network calls are performed. -/
def handleSubmit (orderType : TxType) (marketPrice : Option MarketPrice)
    (amount : AmountInput) (amountError : Option AmountError) :
    Option TradeRequest :=
  if isFormValid amount amountError && marketPrice.isSome then
    match parseAmount amount with
    | some amountBaht => some { symbol := "gold96", amount := amountBaht }
    | none => none
  else none

/-! ## Helper lemmas -/

/-- A member of `pushCap l q` is a member of `l` or is `q` itself. -/
theorem mem_pushCap {l : List ChartData} {q p : ChartData}
    (h : p ∈ pushCap l q) : p ∈ l ∨ p = q := by
  unfold pushCap at h
  split at h
  · have h2 : p ∈ l ++ [q] := List.tail_subset _ h
    simpa using h2
  · simpa using h

/-- `pushCap` preserves the capacity bound. -/
theorem length_pushCap_le {l : List ChartData} (q : ChartData)
    (h : l.length ≤ maxDataPoints) :
    (pushCap l q).length ≤ maxDataPoints := by
  unfold pushCap
  split
  · next hl =>
    simp only [List.length_tail, List.length_append, List.length_singleton]
    omega
  · next hl =>
    simp only [List.length_append, List.length_singleton] at hl ⊢
    omega

/-- At capacity, `pushCap` evicts exactly the oldest point (FIFO). -/
theorem pushCap_full {l : List ChartData} (q : ChartData)
    (h : l.length = maxDataPoints) : pushCap l q = l.tail ++ [q] := by
  unfold pushCap
  have hl : maxDataPoints < (l ++ [q]).length := by
    simp [List.length_append, h]
  rw [if_pos hl]
  cases l with
  | nil => simp [maxDataPoints] at h
  | cons a t => simp

/-- The point just appended is always the last point of the series. -/
theorem getLast?_pushCap (l : List ChartData) (q : ChartData) :
    (pushCap l q).getLast? = some q := by
  unfold pushCap
  split
  · next hl =>
    cases l with
    | nil => simp [maxDataPoints] at hl
    | cons a t => simp
  · simp

/-- `watchGoldSpotPrice` only touches `chartData` and `lastSpotPrice`. -/
theorem watchGoldSpotPrice_frame (status : TradingStatus)
    (val : Option SpotMsg) (ts : ℕ) (s : HomeState) :
    (watchGoldSpotPrice status val ts s).buyData = s.buyData ∧
    (watchGoldSpotPrice status val ts s).sellData = s.sellData ∧
    (watchGoldSpotPrice status val ts s).lastBuyPrice = s.lastBuyPrice ∧
    (watchGoldSpotPrice status val ts s).lastSellPrice = s.lastSellPrice := by
  cases status with
  | stop => simp [watchGoldSpotPrice, appendSpot]
  | pause => simp [watchGoldSpotPrice]
  | online =>
    cases val with
    | none => simp [watchGoldSpotPrice]
    | some m =>
      cases m with
      | raw str => simp [watchGoldSpotPrice]
      | payload p =>
        cases p with
        | none => simp [watchGoldSpotPrice]
        | some q => simp [watchGoldSpotPrice, appendSpot]

/-- `watchGold96Price` only touches the gold96 series and caches. -/
theorem watchGold96Price_frame (status : TradingStatus)
    (val : Option Gold96Msg) (ts : ℕ) (s : HomeState) :
    (watchGold96Price status val ts s).chartData = s.chartData ∧
    (watchGold96Price status val ts s).lastSpotPrice = s.lastSpotPrice := by
  cases status with
  | stop => simp [watchGold96Price, appendGold96]
  | pause => simp [watchGold96Price]
  | online =>
    cases val with
    | none => simp [watchGold96Price]
    | some m =>
      cases m with
      | raw str => simp [watchGold96Price]
      | payload p sp =>
        cases p with
        | none => simp [watchGold96Price]
        | some q => simp [watchGold96Price, appendGold96]

/-- `heartbeatSpot` only touches `chartData`. -/
theorem heartbeatSpot_frame (st : TradingStatus) (ts : ℕ) (s : HomeState) :
    (heartbeatSpot st ts s).buyData = s.buyData ∧
    (heartbeatSpot st ts s).sellData = s.sellData ∧
    (heartbeatSpot st ts s).lastSpotPrice = s.lastSpotPrice ∧
    (heartbeatSpot st ts s).lastBuyPrice = s.lastBuyPrice ∧
    (heartbeatSpot st ts s).lastSellPrice = s.lastSellPrice := by
  cases h : s.lastSpotPrice with
  | none => simp [heartbeatSpot, h]
  | some v =>
    by_cases hd : hbDue s.chartData ts <;> simp [heartbeatSpot, h, hd]

/-- `heartbeatBuy` only touches `buyData`. -/
theorem heartbeatBuy_frame (st : TradingStatus) (ts : ℕ) (s : HomeState) :
    (heartbeatBuy st ts s).chartData = s.chartData ∧
    (heartbeatBuy st ts s).sellData = s.sellData ∧
    (heartbeatBuy st ts s).lastSpotPrice = s.lastSpotPrice ∧
    (heartbeatBuy st ts s).lastBuyPrice = s.lastBuyPrice ∧
    (heartbeatBuy st ts s).lastSellPrice = s.lastSellPrice := by
  cases h : s.lastBuyPrice with
  | none => simp [heartbeatBuy, h]
  | some v =>
    by_cases hd : hbDue s.buyData ts <;> simp [heartbeatBuy, h, hd]

/-- `heartbeatSell` only touches `sellData`. -/
theorem heartbeatSell_frame (st : TradingStatus) (ts : ℕ) (s : HomeState) :
    (heartbeatSell st ts s).chartData = s.chartData ∧
    (heartbeatSell st ts s).buyData = s.buyData ∧
    (heartbeatSell st ts s).lastSpotPrice = s.lastSpotPrice ∧
    (heartbeatSell st ts s).lastBuyPrice = s.lastBuyPrice ∧
    (heartbeatSell st ts s).lastSellPrice = s.lastSellPrice := by
  cases h : s.lastSellPrice with
  | none => simp [heartbeatSell, h]
  | some v =>
    by_cases hd : hbDue s.sellData ts <;> simp [heartbeatSell, h, hd]

/-- Characterisation of the spot section of the heartbeat. -/
theorem heartbeatSpot_chartData (st : TradingStatus) (ts : ℕ)
    (s : HomeState) :
    (heartbeatSpot st ts s).chartData =
      match s.lastSpotPrice with
      | none => s.chartData
      | some v =>
        if hbDue s.chartData ts then
          pushCap s.chartData
            ⟨ts, if st = TradingStatus.stop then NumVal.num 0 else v⟩
        else s.chartData := by
  cases h : s.lastSpotPrice with
  | none => simp [heartbeatSpot, h]
  | some v =>
    by_cases hd : hbDue s.chartData ts <;> simp [heartbeatSpot, h, hd]

/-- Characterisation of the buy section of the heartbeat. -/
theorem heartbeatBuy_buyData (st : TradingStatus) (ts : ℕ) (s : HomeState) :
    (heartbeatBuy st ts s).buyData =
      match s.lastBuyPrice with
      | none => s.buyData
      | some v =>
        if hbDue s.buyData ts then
          pushCap s.buyData
            ⟨ts, if st = TradingStatus.stop then NumVal.num 0 else v⟩
        else s.buyData := by
  cases h : s.lastBuyPrice with
  | none => simp [heartbeatBuy, h]
  | some v =>
    by_cases hd : hbDue s.buyData ts <;> simp [heartbeatBuy, h, hd]

/-- Characterisation of the sell section of the heartbeat. -/
theorem heartbeatSell_sellData (st : TradingStatus) (ts : ℕ)
    (s : HomeState) :
    (heartbeatSell st ts s).sellData =
      match s.lastSellPrice with
      | none => s.sellData
      | some v =>
        if hbDue s.sellData ts then
          pushCap s.sellData
            ⟨ts, if st = TradingStatus.stop then NumVal.num 0 else v⟩
        else s.sellData := by
  cases h : s.lastSellPrice with
  | none => simp [heartbeatSell, h]
  | some v =>
    by_cases hd : hbDue s.sellData ts <;> simp [heartbeatSell, h, hd]

/-! ## Concrete states and inputs used by counterexamples and witnesses -/

/-- A state that has observed a spot price of 100 and gold96 prices of
40000 / 39800 before any stop. -/
def preStopState : HomeState :=
  { chartData := [⟨0, NumVal.num 100⟩],
    buyData := [⟨0, NumVal.num 40000⟩],
    sellData := [⟨0, NumVal.num 39800⟩],
    lastSpotPrice := some (NumVal.num 100),
    lastBuyPrice := some (NumVal.num 40000),
    lastSellPrice := some (NumVal.num 39800) }

/-! ## Claim theorems -/

/-- C1 counterexample: processing a raw spot tick in the `stop` state does
NOT leave the last-known-value cache unchanged — starting from a state
whose cached spot price is 100, the handler overwrites the cache with the
forced display value 0 (HomeView.vue:168 runs unconditionally after the
push), refuting the claim that the cache is left at the pre-stop price. -/
theorem C1_counterexample :
    ¬ ((watchGoldSpotPrice TradingStatus.stop none 5 preStopState).lastSpotPrice
        = preStopState.lastSpotPrice) := by
  decide

/-- C1 amended: for every raw tick processed while the trading-control
state is `stop`, the appended display value is zero AND the last-known-
value cache is overwritten with zero as well (for the spot handler and
for both gold96 series), so after a transition back to `online` the
heartbeat resumes from zero, not from the pre-stop price, until a fresh
tick arrives. -/
theorem C1_stop_tick_zeroes_cache (val : Option SpotMsg)
    (gval : Option Gold96Msg) (ts : ℕ) (s : HomeState) :
    (watchGoldSpotPrice TradingStatus.stop val ts s).chartData.getLast?
        = some ⟨ts, NumVal.num 0⟩ ∧
    (watchGoldSpotPrice TradingStatus.stop val ts s).lastSpotPrice
        = some (NumVal.num 0) ∧
    (watchGold96Price TradingStatus.stop gval ts s).buyData.getLast?
        = some ⟨ts, NumVal.num 0⟩ ∧
    (watchGold96Price TradingStatus.stop gval ts s).sellData.getLast?
        = some ⟨ts, NumVal.num 0⟩ ∧
    (watchGold96Price TradingStatus.stop gval ts s).lastBuyPrice
        = some (NumVal.num 0) ∧
    (watchGold96Price TradingStatus.stop gval ts s).lastSellPrice
        = some (NumVal.num 0) := by
  refine ⟨?_, rfl, ?_, ?_, rfl, rfl⟩
  · exact getLast?_pushCap _ _
  · exact getLast?_pushCap _ _
  · exact getLast?_pushCap _ _

/-- C2 counterexample: two subscriptions to the same symbol do NOT share
one connection — starting from no connections, calling `streamSymbol`
twice for `spot` leaves two concurrent `EventSource` connections open,
refuting the at-most-one-connection-per-symbol claim. -/
theorem C2_counterexample :
    ¬ (connCount (streamSymbol (streamSymbol [] "spot") "spot") "spot" ≤ 1) := by
  decide

/-- C2 amended: `streamSymbol` has no registry and no reference counting:
every call unconditionally opens one more `EventSource` connection for
its symbol (and leaves other symbols' counts untouched), so N
subscriptions to a symbol hold N concurrent connections. -/
theorem C2_streamSymbol_always_opens (connections : List String)
    (symbol other : String) :
    connCount (streamSymbol connections symbol) symbol
        = connCount connections symbol + 1 ∧
    (other ≠ symbol →
      connCount (streamSymbol connections symbol) other
          = connCount connections other) := by
  constructor
  · unfold connCount streamSymbol
    simp
  · intro hne
    unfold connCount streamSymbol
    rw [List.filter_append]
    have hbe : (symbol == other) = false := by
      rw [beq_eq_false_iff_ne]
      exact fun hcontra => hne hcontra.symm
    simp [List.filter, hbe]

/-- C2 amended, witness: with the two concrete subscriptions of
`HomeView.vue`'s `onMounted` (first `gold96`, then `spot`), each symbol
ends up with exactly one connection and a repeated `spot` subscription
raises the `spot` count to two. -/
theorem C2_streamSymbol_always_opens_witness :
    ("spot" : String) ≠ "gold96" ∧
    connCount (streamSymbol (streamSymbol [] "gold96") "spot") "spot" = 1 ∧
    connCount (streamSymbol [] "gold96") "spot" + 1 = 1 := by
  refine ⟨by decide, ?_, by decide⟩
  have h := C2_streamSymbol_always_opens (streamSymbol [] "gold96")
    "spot" "gold96"
  calc connCount (streamSymbol (streamSymbol [] "gold96") "spot") "spot"
      = connCount (streamSymbol [] "gold96") "spot" + 1 := h.1
    _ = 1 := by decide

/-- C10: when the trading-control state is `online`, a `null` ref value,
a degraded raw-string payload (forwarded by `streamSymbol` after a JSON
parse failure), or a payload without a truthy price field (`price` for
the spot handler, `buy_price` for the gold96 handler) causes the watch
handler to return before appending anything: the whole state — series
arrays and last-known-value caches — is left unchanged, so such updates
are silently dropped rather than rendered. -/
theorem C10_online_guard_drops (ts : ℕ) (s : HomeState)
    (sval : Option SpotMsg) (gval : Option Gold96Msg)
    (hs : spotGuardFails sval = true)
    (hg : gold96GuardFails gval = true) :
    watchGoldSpotPrice TradingStatus.online sval ts s = s ∧
    watchGold96Price TradingStatus.online gval ts s = s := by
  constructor
  · cases sval with
    | none => rfl
    | some m =>
      cases m with
      | raw str => rfl
      | payload p =>
        cases p with
        | none => rfl
        | some q => simp [spotGuardFails] at hs
  · cases gval with
    | none => rfl
    | some m =>
      cases m with
      | raw str => rfl
      | payload p sp =>
        cases p with
        | none => rfl
        | some q => simp [gold96GuardFails] at hg

/-- C10 witness: a concrete degraded raw-string spot payload and a
gold96 payload lacking `buy_price` are dropped without any state
change. -/
theorem C10_online_guard_drops_witness :
    spotGuardFails (some (SpotMsg.raw "not json")) = true ∧
    gold96GuardFails (some (Gold96Msg.payload none (some 39800))) = true ∧
    (watchGoldSpotPrice TradingStatus.online (some (SpotMsg.raw "not json"))
        7 preStopState = preStopState ∧
     watchGold96Price TradingStatus.online
        (some (Gold96Msg.payload none (some 39800))) 7 preStopState
        = preStopState) := by
  exact ⟨by decide, by decide,
    C10_online_guard_drops 7 preStopState _ _ (by decide) (by decide)⟩

/-! ## Poll loop lemmas -/

/-- Unfolding equation of `pollLoop` (defined by well-founded recursion). -/
theorem pollLoop_eq (responses : ℕ → TradingHistoryResponse)
    (maxAttempts attempts fetches sleeps : ℕ) :
    pollLoop responses maxAttempts attempts fetches sleeps =
      if attempts < maxAttempts then
        if isFinalState (responses attempts).status then
          { result := some (responses attempts), fetches := fetches + 1,
            sleeps := sleeps }
        else
          pollLoop responses maxAttempts (attempts + 1) (fetches + 1)
            (if attempts < maxAttempts - 1 then sleeps + 1 else sleeps)
      else { result := none, fetches := fetches, sleeps := sleeps } := by
  rw [pollLoop]

/-- If no fetch up to the budget is terminal, the loop exhausts the budget:
exactly `maxAttempts - attempts` further fetches, then the timeout. -/
theorem pollLoop_timeout (responses : ℕ → TradingHistoryResponse)
    (maxAttempts : ℕ)
    (hnt : ∀ j, j < maxAttempts → isFinalState (responses j).status = false) :
    ∀ fuel attempts fetches sleeps : ℕ, maxAttempts - attempts ≤ fuel →
      pollLoop responses maxAttempts attempts fetches sleeps =
        { result := none, fetches := fetches + (maxAttempts - attempts),
          sleeps := sleeps + (maxAttempts - 1 - attempts) } := by
  intro fuel
  induction fuel with
  | zero =>
    intro attempts fetches sleeps hf
    have ha : ¬ attempts < maxAttempts := by omega
    rw [pollLoop_eq, if_neg ha]
    have h1 : maxAttempts - attempts = 0 := by omega
    have h2 : maxAttempts - 1 - attempts = 0 := by omega
    rw [h1, h2]
    simp
  | succ fuel ih =>
    intro attempts fetches sleeps hf
    by_cases ha : attempts < maxAttempts
    · rw [pollLoop_eq, if_pos ha, if_neg (by simp [hnt attempts ha])]
      rw [ih (attempts + 1) (fetches + 1) _ (by omega)]
      by_cases hs : attempts < maxAttempts - 1
      · rw [if_pos hs]
        simp only [PollTrace.mk.injEq]
        exact ⟨trivial, by omega, by omega⟩
      · rw [if_neg hs]
        simp only [PollTrace.mk.injEq]
        exact ⟨trivial, by omega, by omega⟩
    · rw [pollLoop_eq, if_neg ha]
      have h1 : maxAttempts - attempts = 0 := by omega
      have h2 : maxAttempts - 1 - attempts = 0 := by omega
      rw [h1, h2]
      simp

/-- If the first terminal fetch is the k-th (0-based), the loop returns it
after exactly `k - attempts + 1` further fetches, sleeping between each
consecutive pair. -/
theorem pollLoop_terminal (responses : ℕ → TradingHistoryResponse)
    (maxAttempts k : ℕ) (hk : k < maxAttempts)
    (hterm : isFinalState (responses k).status = true)
    (hpre : ∀ j, j < k → isFinalState (responses j).status = false) :
    ∀ fuel attempts fetches sleeps : ℕ, attempts ≤ k → k - attempts ≤ fuel →
      pollLoop responses maxAttempts attempts fetches sleeps =
        { result := some (responses k),
          fetches := fetches + (k - attempts) + 1,
          sleeps := sleeps + (k - attempts) } := by
  intro fuel
  induction fuel with
  | zero =>
    intro attempts fetches sleeps hak hf
    have heq : attempts = k := by omega
    subst heq
    rw [pollLoop_eq, if_pos hk, if_pos hterm]
    simp
  | succ fuel ih =>
    intro attempts fetches sleeps hak hf
    by_cases heq : attempts = k
    · subst heq
      rw [pollLoop_eq, if_pos hk, if_pos hterm]
      simp
    · have halt : attempts < k := by omega
      have ha : attempts < maxAttempts := by omega
      rw [pollLoop_eq, if_pos ha, if_neg (by simp [hpre attempts halt])]
      have hs : attempts < maxAttempts - 1 := by omega
      rw [if_pos hs]
      rw [ih (attempts + 1) (fetches + 1) (sleeps + 1) (by omega) (by omega)]
      simp only [PollTrace.mk.injEq]
      exact ⟨trivial, by omega, by omega⟩

/-- The loop never fetches more than its remaining budget. -/
theorem pollLoop_fetches_le (responses : ℕ → TradingHistoryResponse)
    (maxAttempts : ℕ) :
    ∀ fuel attempts fetches sleeps : ℕ, maxAttempts - attempts ≤ fuel →
      (pollLoop responses maxAttempts attempts fetches sleeps).fetches
        ≤ fetches + (maxAttempts - attempts) := by
  intro fuel
  induction fuel with
  | zero =>
    intro attempts fetches sleeps hf
    have ha : ¬ attempts < maxAttempts := by omega
    rw [pollLoop_eq, if_neg ha]
    dsimp only
    omega
  | succ fuel ih =>
    intro attempts fetches sleeps hf
    by_cases ha : attempts < maxAttempts
    · rw [pollLoop_eq, if_pos ha]
      by_cases ht : isFinalState (responses attempts).status
      · rw [if_pos ht]
        dsimp only
        omega
      · rw [if_neg ht]
        have := ih (attempts + 1) (fetches + 1)
          (if attempts < maxAttempts - 1 then sleeps + 1 else sleeps)
          (by omega)
        omega
    · rw [pollLoop_eq, if_neg ha]
      dsimp only
      omega

/-! ## Aggregation lemmas -/

/-- Folding addition of a projected field starting from `a` equals `a`
plus the sum of the projected values. -/
theorem foldl_add_proj (f : Transaction → ℚ) :
    ∀ (l : List Transaction) (a : ℚ),
      l.foldl (fun sum t => sum + f t) a = a + (l.map f).sum := by
  intro l
  induction l with
  | nil => intro a; simp
  | cons t l ih => intro a; simp [ih, add_assoc]

/-- Filtering to terminal statuses first does not change a
completed-only filter. -/
theorem completed_filter_absorbs (l : List Transaction) (ty : TxType) :
    (l.filter (fun t => isFinalState t.status)).filter
        (fun t => t.type == ty && t.status == OrderStatus.completed)
      = l.filter (fun t => t.type == ty && t.status == OrderStatus.completed) := by
  induction l with
  | nil => rfl
  | cons t l ih =>
    by_cases hf : isFinalState t.status = true
    · simp only [List.filter_cons, hf, if_pos]
      by_cases hc : (t.type == ty && t.status == OrderStatus.completed) = true
      · simp [hc, ih]
      · simp [List.filter_cons, hc, ih]
    · have hfx : isFinalState t.status = false := by
        cases hx : isFinalState t.status
        · rfl
        · exact absurd hx hf
      have hcx : (t.type == ty && t.status == OrderStatus.completed) = false := by
        cases hst : t.status <;> simp_all [isFinalState]
      simp [List.filter_cons, hfx, hcx, ih]

/-! ## Concrete orders, responses and transactions -/

/-- A completed buy transaction used in concrete runs. -/
def exTransaction : Transaction :=
  { id := "ord-1", type := TxType.buy, amount := 5, price := 2000,
    total := 10000, status := OrderStatus.completed, fee := 0 }

/-- Effect of one completed poll loop on the transactions list: the
reconciled record is spliced in (modelled as appending the final
record). -/
def exLoopEffect : List Transaction → List Transaction :=
  fun txs => txs ++ [exTransaction]

/-- A never-terminal poll response. -/
def pendingResponse : TradingHistoryResponse :=
  { id := "ord-1", status := OrderStatus.pending, quantity := some 5,
    pricePerUnit := some 2000, totalAmount := some 10000, fee := some 0 }

/-- A terminal (`completed`) poll response. -/
def completedResponse : TradingHistoryResponse :=
  { id := "ord-1", status := OrderStatus.completed, quantity := some 5,
    pricePerUnit := some 2000, totalAmount := some 10000, fee := some 0 }

/-- A remote order that never reaches a terminal state. -/
def pendingResponses : ℕ → TradingHistoryResponse := fun _ => pendingResponse

/-- A remote order whose second status fetch is terminal. -/
def completesAtSecond : ℕ → TradingHistoryResponse :=
  fun n => if n = 1 then completedResponse else pendingResponse

/-- The three-transaction example of the spec: a completed buy of 100
(total 200000), a completed sell of 40 (total 90000), and a pending buy
of 10. -/
def exampleTransactions : List Transaction :=
  [ { id := "t1", type := TxType.buy, amount := 100, price := 2000,
      total := 200000, status := OrderStatus.completed, fee := 0 },
    { id := "t2", type := TxType.sell, amount := 40, price := 2250,
      total := 90000, status := OrderStatus.completed, fee := 0 },
    { id := "t3", type := TxType.buy, amount := 10, price := 2000,
      total := 20000, status := OrderStatus.pending, fee := 0 } ]

/-- C3: invoking `pollOrderStatus` a second time for the same order id
while the first invocation's poll loop is still active starts no second
loop: the first call passes the guard and adds the id, the second call
finds the id in `pollingOrders` and returns immediately, so exactly one
poll loop runs, and the shared `transactions` list both callers observe
afterwards is the result of that single loop.  The last conjunct is the
guard itself: any call arriving while the id is registered is a no-op. -/
theorem C3_pollOrderStatus_dedup (pollingOrders : List String)
    (orderId : String) (loopEffect : List Transaction → List Transaction)
    (txs : List Transaction) (h : orderId ∉ pollingOrders) :
    (pollTwiceConcurrent pollingOrders orderId loopEffect txs).1 = 1 ∧
    (pollTwiceConcurrent pollingOrders orderId loopEffect txs).2.1
        = loopEffect txs ∧
    (∀ p : List String, orderId ∈ p →
        pollOrderStatusEnter p orderId = (false, p)) := by
  have h1 : pollOrderStatusEnter pollingOrders orderId
      = (true, pollingOrders ++ [orderId]) := by
    unfold pollOrderStatusEnter
    rw [if_neg h]
  have hmem : orderId ∈ pollingOrders ++ [orderId] := by simp
  have h2 : pollOrderStatusEnter (pollingOrders ++ [orderId]) orderId
      = (false, pollingOrders ++ [orderId]) := by
    unfold pollOrderStatusEnter
    rw [if_pos hmem]
  refine ⟨?_, ?_, ?_⟩
  · simp [pollTwiceConcurrent, h1, h2]
  · simp [pollTwiceConcurrent, h1, h2]
  · intro p hp
    unfold pollOrderStatusEnter
    rw [if_pos hp]

/-- C3 witness: concrete double invocation for order `ord-1` starting
from an empty polling set: one loop, and the shared list equals the
single loop's result. -/
theorem C3_pollOrderStatus_dedup_witness :
    ("ord-1" : String) ∉ ([] : List String) ∧
    (pollTwiceConcurrent [] "ord-1" exLoopEffect []).1 = 1 ∧
    (pollTwiceConcurrent [] "ord-1" exLoopEffect []).2.1
        = exLoopEffect [] := by
  have h := C3_pollOrderStatus_dedup [] "ord-1" exLoopEffect []
    (by simp)
  exact ⟨by simp, h.1, h.2.1⟩

/-- C4: the poll loop fetches at most `maxAttempts` times; when no fetch
within the budget is terminal it raises the timeout (`result = none`)
after exactly `maxAttempts` fetches with a sleep between each consecutive
pair (`maxAttempts - 1` sleeps); and as soon as the k-th fetch is the
first terminal one it returns that response immediately, after exactly
`k + 1` fetches and `k` sleeps. -/
theorem C4_pollOrderUntilComplete (responses : ℕ → TradingHistoryResponse)
    (interval maxAttempts : ℕ) :
    ((pollOrderUntilComplete responses interval maxAttempts).fetches
        ≤ maxAttempts) ∧
    ((∀ j, j < maxAttempts → isFinalState (responses j).status = false) →
      pollOrderUntilComplete responses interval maxAttempts =
        { result := none, fetches := maxAttempts,
          sleeps := maxAttempts - 1 }) ∧
    (∀ k, k < maxAttempts →
      (∀ j, j < k → isFinalState (responses j).status = false) →
      isFinalState (responses k).status = true →
      pollOrderUntilComplete responses interval maxAttempts =
        { result := some (responses k), fetches := k + 1, sleeps := k }) := by
  refine ⟨?_, ?_, ?_⟩
  · have h := pollLoop_fetches_le responses maxAttempts maxAttempts 0 0 0
      (by omega)
    simpa [pollOrderUntilComplete] using h
  · intro hnt
    have h := pollLoop_timeout responses maxAttempts hnt maxAttempts 0 0 0
      (by omega)
    simpa [pollOrderUntilComplete] using h
  · intro k hk hpre hterm
    have h := pollLoop_terminal responses maxAttempts k hk hterm hpre
      maxAttempts 0 0 0 (by omega) (by omega)
    simpa [pollOrderUntilComplete] using h

/-- C4 witness: with `intervalMs = 3000, maxAttempts = 2` against an
order that never reaches a terminal state, the loop times out after
exactly 2 status fetches (not 3), with one sleep between them; and an
order whose second fetch is terminal is returned right then. -/
theorem C4_pollOrderUntilComplete_witness :
    pollOrderUntilComplete pendingResponses 3000 2 =
      { result := none, fetches := 2, sleeps := 1 } ∧
    pollOrderUntilComplete completesAtSecond 3000 60 =
      { result := some completedResponse, fetches := 2, sleeps := 1 } := by
  constructor
  · exact (C4_pollOrderUntilComplete pendingResponses 3000 2).2.1 (by decide)
  · have h := (C4_pollOrderUntilComplete completesAtSecond 3000 60).2.2 1
      (by decide) (by decide) (by decide)
    simpa [completesAtSecond] using h

/-- C8: the four portfolio metrics of `Order.vue` agree with the spec's
formulas — `totalBought` / `totalSold` are the sums of `amount` over
completed buys / sells, `netPosition` is their difference, `totalPnL` is
the completed-sell `total` sum minus the completed-buy `total` sum; an
empty list yields zero for all four; dropping every non-terminal
transaction changes none of the four metrics (non-terminal records are
excluded from every sum); and the spec's three-transaction example
evaluates to 100 / 40 / 60 / -110000. -/
theorem C8_portfolio_metrics :
    (∀ l : List Transaction, totalBought l = specTotalBought l) ∧
    (∀ l : List Transaction, totalSold l = specTotalSold l) ∧
    (∀ l : List Transaction,
        netPosition l = totalBought l - totalSold l) ∧
    (∀ l : List Transaction, totalPnL l = specTotalPnL l) ∧
    (totalBought [] = 0 ∧ totalSold [] = 0 ∧ netPosition [] = 0 ∧
        totalPnL [] = 0) ∧
    (∀ l : List Transaction,
        totalBought (l.filter (fun t => isFinalState t.status))
            = totalBought l ∧
        totalSold (l.filter (fun t => isFinalState t.status))
            = totalSold l ∧
        netPosition (l.filter (fun t => isFinalState t.status))
            = netPosition l ∧
        totalPnL (l.filter (fun t => isFinalState t.status))
            = totalPnL l) ∧
    (totalBought exampleTransactions = 100 ∧
     totalSold exampleTransactions = 40 ∧
     netPosition exampleTransactions = 60 ∧
     totalPnL exampleTransactions = -110000) := by
  have hb : ∀ l : List Transaction, totalBought l = specTotalBought l := by
    intro l
    unfold totalBought specTotalBought
    rw [foldl_add_proj]
    simp
  have hs : ∀ l : List Transaction, totalSold l = specTotalSold l := by
    intro l
    unfold totalSold specTotalSold
    rw [foldl_add_proj]
    simp
  have hp : ∀ l : List Transaction, totalPnL l = specTotalPnL l := by
    intro l
    unfold totalPnL specTotalPnL
    rw [foldl_add_proj, foldl_add_proj]
    simp
  refine ⟨hb, hs, fun l => rfl, hp,
    by simp [totalBought, totalSold, netPosition, totalPnL],
    ?_,
    by norm_num [totalBought, totalSold, netPosition, totalPnL,
      exampleTransactions, List.filter, List.foldl]⟩
  intro l
  have h1 : totalBought (l.filter (fun t => isFinalState t.status))
      = totalBought l := by
    unfold totalBought
    rw [completed_filter_absorbs]
  have h2 : totalSold (l.filter (fun t => isFinalState t.status))
      = totalSold l := by
    unfold totalSold
    rw [completed_filter_absorbs]
  have h4 : totalPnL (l.filter (fun t => isFinalState t.status))
      = totalPnL l := by
    unfold totalPnL
    rw [completed_filter_absorbs, completed_filter_absorbs]
  exact ⟨h1, h2, by unfold netPosition; rw [h1, h2], h4⟩

/-! ## Validation lemmas -/

/-- If `validateAmount` passes on a numeric amount, the amount is
positive, at least the 1000 minimum and at most the 1000000 maximum. -/
theorem validateAmount_none_bounds (orderType : TxType)
    (balance : Option BalanceInfo) (marketPrice : Option MarketPrice)
    (q : ℚ)
    (h : validateAmount orderType balance marketPrice (AmountInput.num q)
        = none) : 0 < q ∧ 1000 ≤ q ∧ q ≤ 1000000 := by
  unfold validateAmount at h
  simp only [amountTruthy, parseAmount] at h
  by_cases h0 : q ≤ 0
  · rw [if_pos h0] at h
    exact absurd h (by simp)
  · rw [if_neg h0] at h
    by_cases h1 : q < 1000
    · rw [if_pos h1] at h
      exact absurd h (by simp)
    · rw [if_neg h1] at h
      by_cases hbuy : orderType = TxType.buy ∧
          overBuyBalance balance q = true
      · rw [if_pos hbuy] at h
        exact absurd h (by simp)
      · rw [if_neg hbuy] at h
        by_cases hsell : orderType = TxType.sell ∧
            overGoldHolding orderType balance marketPrice
              (AmountInput.num q) = true
        · rw [if_pos hsell] at h
          exact absurd h (by simp)
        · rw [if_neg hsell] at h
          by_cases h2 : 1000000 < q
          · rw [if_pos h2] at h
            exact absurd h (by simp)
          · exact ⟨by linarith, by linarith, by linarith⟩

/-- With a validation error set, `handleSubmit` returns before any
network call. -/
theorem handleSubmit_with_error (orderType : TxType)
    (marketPrice : Option MarketPrice) (amount : AmountInput)
    (e : AmountError) :
    handleSubmit orderType marketPrice amount (some e) = none := by
  unfold handleSubmit isFormValid
  simp

/-- C7: submitting an order whose amount is absent, non-numeric, not
positive, below the 1000 minimum, or above the 1000000 maximum fails
client-side: `validateAmount` sets an error (for any order type, balance
and market price), and `handleSubmit` — whose `amountError` is exactly
the result of `validateAmount` via the watchers on the amount field —
returns before issuing any network call. -/
theorem C7_invalid_amount_blocked (orderType : TxType)
    (balance : Option BalanceInfo) (marketPrice : Option MarketPrice)
    (amount : AmountInput)
    (h : amount = AmountInput.empty ∨
      (∃ str, amount = AmountInput.nonNumeric str) ∨
      (∃ q, amount = AmountInput.num q ∧
        (q ≤ 0 ∨ q < 1000 ∨ 1000000 < q))) :
    (validateAmount orderType balance marketPrice amount).isSome = true ∧
    handleSubmit orderType marketPrice amount
        (validateAmount orderType balance marketPrice amount) = none := by
  have hsome : (validateAmount orderType balance marketPrice amount).isSome
      = true := by
    rcases h with h | ⟨str, h⟩ | ⟨q, h, hq⟩
    · subst h
      simp [validateAmount, amountTruthy]
    · subst h
      simp [validateAmount, amountTruthy, parseAmount]
    · subst h
      cases hv : validateAmount orderType balance marketPrice
          (AmountInput.num q) with
      | some e => simp
      | none =>
        have hb := validateAmount_none_bounds orderType balance marketPrice
          q hv
        rcases hq with hq | hq | hq <;> linarith [hb.1, hb.2.1, hb.2.2]
  refine ⟨hsome, ?_⟩
  cases hv : validateAmount orderType balance marketPrice amount with
  | none => rw [hv] at hsome; simp at hsome
  | some e => exact handleSubmit_with_error orderType marketPrice amount e

/-- C7 witness: amount 500 (below the 1,000 minimum) fails with the
minimum-order validation error and `handleSubmit` performs zero network
calls. -/
theorem C7_invalid_amount_blocked_witness :
    (AmountInput.num 500 = AmountInput.empty ∨
      (∃ str, AmountInput.num 500 = AmountInput.nonNumeric str) ∨
      (∃ q, AmountInput.num 500 = AmountInput.num q ∧
        (q ≤ 0 ∨ q < 1000 ∨ 1000000 < q))) ∧
    validateAmount TxType.buy none none (AmountInput.num 500)
        = some AmountError.belowMin ∧
    (validateAmount TxType.buy none none (AmountInput.num 500)).isSome
        = true ∧
    handleSubmit TxType.buy none (AmountInput.num 500)
        (validateAmount TxType.buy none none (AmountInput.num 500))
        = none := by
  have hmem : (AmountInput.num 500 = AmountInput.empty ∨
      (∃ str, AmountInput.num 500 = AmountInput.nonNumeric str) ∨
      (∃ q, AmountInput.num 500 = AmountInput.num q ∧
        (q ≤ 0 ∨ q < 1000 ∨ 1000000 < q))) :=
    Or.inr (Or.inr ⟨500, rfl, Or.inr (Or.inl (by norm_num))⟩)
  have h := C7_invalid_amount_blocked TxType.buy none none
    (AmountInput.num 500) hmem
  refine ⟨hmem, ?_, h.1, h.2⟩
  unfold validateAmount
  simp only [amountTruthy, parseAmount]
  rw [if_neg (by simp), if_neg (by norm_num), if_pos (by norm_num)]

/-! ## Heartbeat composition lemmas -/

/-- Length bound for the spot heartbeat section. -/
theorem heartbeatSpot_length (st : TradingStatus) (ts : ℕ) (s : HomeState)
    (h : s.chartData.length ≤ maxDataPoints) :
    (heartbeatSpot st ts s).chartData.length ≤ maxDataPoints := by
  rw [heartbeatSpot_chartData]
  cases hl : s.lastSpotPrice with
  | none => exact h
  | some v =>
    dsimp only
    by_cases hd : hbDue s.chartData ts
    · rw [if_pos hd]
      exact length_pushCap_le _ h
    · rw [if_neg hd]
      exact h

/-- Length bound for the buy heartbeat section. -/
theorem heartbeatBuy_length (st : TradingStatus) (ts : ℕ) (s : HomeState)
    (h : s.buyData.length ≤ maxDataPoints) :
    (heartbeatBuy st ts s).buyData.length ≤ maxDataPoints := by
  rw [heartbeatBuy_buyData]
  cases hl : s.lastBuyPrice with
  | none => exact h
  | some v =>
    dsimp only
    by_cases hd : hbDue s.buyData ts
    · rw [if_pos hd]
      exact length_pushCap_le _ h
    · rw [if_neg hd]
      exact h

/-- Length bound for the sell heartbeat section. -/
theorem heartbeatSell_length (st : TradingStatus) (ts : ℕ) (s : HomeState)
    (h : s.sellData.length ≤ maxDataPoints) :
    (heartbeatSell st ts s).sellData.length ≤ maxDataPoints := by
  rw [heartbeatSell_sellData]
  cases hl : s.lastSellPrice with
  | none => exact h
  | some v =>
    dsimp only
    by_cases hd : hbDue s.sellData ts
    · rw [if_pos hd]
      exact length_pushCap_le _ h
    · rw [if_neg hd]
      exact h

/-- The three sections of one heartbeat firing act on disjoint series. -/
theorem updateIntervalCallback_series (sp g9 : TradingStatus) (ts : ℕ)
    (s : HomeState) :
    (updateIntervalCallback sp g9 ts s).chartData
        = (heartbeatSpot sp ts s).chartData ∧
    (updateIntervalCallback sp g9 ts s).buyData
        = (heartbeatBuy g9 ts (heartbeatSpot sp ts s)).buyData ∧
    (updateIntervalCallback sp g9 ts s).sellData
        = (heartbeatSell g9 ts
            (heartbeatBuy g9 ts (heartbeatSpot sp ts s))).sellData := by
  unfold updateIntervalCallback
  refine ⟨?_, ?_, rfl⟩
  · rw [(heartbeatSell_frame _ _ _).1, (heartbeatBuy_frame _ _ _).1]
  · rw [(heartbeatSell_frame _ _ _).2.1]

/-- One heartbeat firing writes none of the last-known-value caches. -/
theorem updateIntervalCallback_lasts (sp g9 : TradingStatus) (ts : ℕ)
    (s : HomeState) :
    (updateIntervalCallback sp g9 ts s).lastSpotPrice = s.lastSpotPrice ∧
    (updateIntervalCallback sp g9 ts s).lastBuyPrice = s.lastBuyPrice ∧
    (updateIntervalCallback sp g9 ts s).lastSellPrice = s.lastSellPrice := by
  unfold updateIntervalCallback
  refine ⟨?_, ?_, ?_⟩
  · rw [(heartbeatSell_frame _ _ _).2.2.1, (heartbeatBuy_frame _ _ _).2.2.1,
      (heartbeatSpot_frame _ _ _).2.2.1]
  · rw [(heartbeatSell_frame _ _ _).2.2.2.1,
      (heartbeatBuy_frame _ _ _).2.2.2.1,
      (heartbeatSpot_frame _ _ _).2.2.2.1]
  · rw [(heartbeatSell_frame _ _ _).2.2.2.2,
      (heartbeatBuy_frame _ _ _).2.2.2.2,
      (heartbeatSpot_frame _ _ _).2.2.2.2]

/-- C6: whenever the heartbeat timer fires for a series that has observed
at least one prior tick (its last-known-value cache holds `v`) and no
point of that series lies within the 1000 ms window (the `hbDue` gate of
HomeView.vue:252/271/290), exactly one point is appended to that series
regardless of feed activity: value `v` when the series' control state is
`online` or `pause`, zero when `stop`; the caches are untouched; and for
a series that has never observed a tick (cache `none`) the heartbeat
appends nothing. -/
theorem C6_heartbeat_appends (ser : SeriesId)
    (spotStatus g96Status : TradingStatus) (ts : ℕ) (s : HomeState)
    (v : NumVal) (hv : seriesLast s ser = some v)
    (hdue : hbDue (seriesData s ser) ts = true) :
    seriesData (updateIntervalCallback spotStatus g96Status ts s) ser =
      pushCap (seriesData s ser)
        ⟨ts, if seriesStatus spotStatus g96Status ser = TradingStatus.stop
             then NumVal.num 0 else v⟩ ∧
    seriesLast (updateIntervalCallback spotStatus g96Status ts s) ser
        = some v ∧
    (∀ s2 : HomeState, seriesLast s2 ser = none →
      seriesData (updateIntervalCallback spotStatus g96Status ts s2) ser
          = seriesData s2 ser) := by
  cases ser with
  | spotSeries =>
    simp only [seriesData, seriesLast, seriesStatus] at hv hdue ⊢
    refine ⟨?_, ?_, ?_⟩
    · rw [(updateIntervalCallback_series _ _ _ _).1, heartbeatSpot_chartData,
        hv]
      simp [hdue]
    · rw [(updateIntervalCallback_lasts _ _ _ _).1, hv]
    · intro s2 h2
      rw [(updateIntervalCallback_series _ _ _ _).1, heartbeatSpot_chartData,
        h2]
  | buySeries =>
    simp only [seriesData, seriesLast, seriesStatus] at hv hdue ⊢
    refine ⟨?_, ?_, ?_⟩
    · rw [(updateIntervalCallback_series _ _ _ _).2.1, heartbeatBuy_buyData,
        (heartbeatSpot_frame _ _ _).2.2.2.1, (heartbeatSpot_frame _ _ _).1,
        hv]
      simp [hdue]
    · rw [(updateIntervalCallback_lasts _ _ _ _).2.1, hv]
    · intro s2 h2
      rw [(updateIntervalCallback_series _ _ _ _).2.1, heartbeatBuy_buyData,
        (heartbeatSpot_frame _ _ _).2.2.2.1, (heartbeatSpot_frame _ _ _).1,
        h2]
  | sellSeries =>
    simp only [seriesData, seriesLast, seriesStatus] at hv hdue ⊢
    refine ⟨?_, ?_, ?_⟩
    · rw [(updateIntervalCallback_series _ _ _ _).2.2, heartbeatSell_sellData,
        (heartbeatBuy_frame _ _ _).2.2.2.2, (heartbeatSpot_frame _ _ _).2.2.2.2,
        (heartbeatBuy_frame _ _ _).2.1, (heartbeatSpot_frame _ _ _).2.1,
        hv]
      simp [hdue]
    · rw [(updateIntervalCallback_lasts _ _ _ _).2.2, hv]
    · intro s2 h2
      rw [(updateIntervalCallback_series _ _ _ _).2.2, heartbeatSell_sellData,
        (heartbeatBuy_frame _ _ _).2.2.2.2, (heartbeatSpot_frame _ _ _).2.2.2.2,
        (heartbeatBuy_frame _ _ _).2.1, (heartbeatSpot_frame _ _ _).2.1,
        h2]

/-- C6 witness: a heartbeat firing at t = 2000 on a state whose spot
series last point is at t = 0 and whose cached spot price is 100 appends
exactly the point (2000, 100) while both controls are online. -/
theorem C6_heartbeat_appends_witness :
    seriesLast preStopState SeriesId.spotSeries = some (NumVal.num 100) ∧
    hbDue (seriesData preStopState SeriesId.spotSeries) 2000 = true ∧
    (seriesData (updateIntervalCallback TradingStatus.online
          TradingStatus.online 2000 preStopState) SeriesId.spotSeries =
        pushCap (seriesData preStopState SeriesId.spotSeries)
          ⟨2000, if seriesStatus TradingStatus.online TradingStatus.online
                    SeriesId.spotSeries = TradingStatus.stop
                 then NumVal.num 0 else NumVal.num 100⟩ ∧
      seriesLast (updateIntervalCallback TradingStatus.online
          TradingStatus.online 2000 preStopState) SeriesId.spotSeries
          = some (NumVal.num 100) ∧
      (∀ s2 : HomeState, seriesLast s2 SeriesId.spotSeries = none →
        seriesData (updateIntervalCallback TradingStatus.online
            TradingStatus.online 2000 s2) SeriesId.spotSeries
            = seriesData s2 SeriesId.spotSeries)) :=
  ⟨by decide, by decide,
    C6_heartbeat_appends SeriesId.spotSeries TradingStatus.online
      TradingStatus.online 2000 preStopState (NumVal.num 100)
      (by decide) (by decide)⟩

/-! ## Paused-series lemmas -/

/-- Membership in a capped push, phrased on the appended value. -/
theorem mem_pushCap_val {l : List ChartData} {p : ChartData} {ts : ℕ}
    {v : NumVal} (h : p ∈ pushCap l ⟨ts, v⟩) : p ∈ l ∨ p.y = v := by
  rcases mem_pushCap h with h2 | h2
  · exact Or.inl h2
  · rw [h2]
    exact Or.inr rfl

/-- One event processed while a series' control state is `pause` leaves
that series' cache untouched and appends, at most, points carrying the
cached value. -/
theorem paused_step (ser : SeriesId) (e : HomeEvent) (s : HomeState)
    (v : NumVal) (hp : pausedFor ser e = true)
    (hv : seriesLast s ser = some v) :
    seriesLast (stepEvent e s) ser = some v ∧
    ∀ p ∈ seriesData (stepEvent e s) ser,
      p ∈ seriesData s ser ∨ p.y = v := by
  cases e with
  | spotTick status val ts =>
    cases ser with
    | spotSeries =>
      have hst : status = TradingStatus.pause := by
        simp [pausedFor] at hp
        exact hp
      subst hst
      exact ⟨hv, fun p hpm => Or.inl hpm⟩
    | buySeries =>
      simp only [stepEvent, seriesData, seriesLast] at hv ⊢
      rw [(watchGoldSpotPrice_frame _ _ _ _).2.2.1,
        (watchGoldSpotPrice_frame _ _ _ _).1]
      exact ⟨hv, fun p hpm => Or.inl hpm⟩
    | sellSeries =>
      simp only [stepEvent, seriesData, seriesLast] at hv ⊢
      rw [(watchGoldSpotPrice_frame _ _ _ _).2.2.2,
        (watchGoldSpotPrice_frame _ _ _ _).2.1]
      exact ⟨hv, fun p hpm => Or.inl hpm⟩
  | gold96Tick status val ts =>
    cases ser with
    | spotSeries =>
      simp only [stepEvent, seriesData, seriesLast] at hv ⊢
      rw [(watchGold96Price_frame _ _ _ _).2,
        (watchGold96Price_frame _ _ _ _).1]
      exact ⟨hv, fun p hpm => Or.inl hpm⟩
    | buySeries =>
      have hst : status = TradingStatus.pause := by
        simp [pausedFor] at hp
        exact hp
      subst hst
      exact ⟨hv, fun p hpm => Or.inl hpm⟩
    | sellSeries =>
      have hst : status = TradingStatus.pause := by
        simp [pausedFor] at hp
        exact hp
      subst hst
      exact ⟨hv, fun p hpm => Or.inl hpm⟩
  | heartbeat sp g9 ts =>
    have hst : seriesStatus sp g9 ser = TradingStatus.pause := by
      simp [pausedFor] at hp
      exact hp
    have hlast : seriesLast (stepEvent (HomeEvent.heartbeat sp g9 ts) s) ser
        = some v := by
      cases ser with
      | spotSeries =>
        simp only [stepEvent, seriesLast] at hv ⊢
        rw [(updateIntervalCallback_lasts _ _ _ _).1]
        exact hv
      | buySeries =>
        simp only [stepEvent, seriesLast] at hv ⊢
        rw [(updateIntervalCallback_lasts _ _ _ _).2.1]
        exact hv
      | sellSeries =>
        simp only [stepEvent, seriesLast] at hv ⊢
        rw [(updateIntervalCallback_lasts _ _ _ _).2.2]
        exact hv
    refine ⟨hlast, ?_⟩
    by_cases hd : hbDue (seriesData s ser) ts = true
    · have hdata := (C6_heartbeat_appends ser sp g9 ts s v hv hd).1
      intro p hpm
      simp only [stepEvent] at hpm
      rw [hdata] at hpm
      have hval : (if seriesStatus sp g9 ser = TradingStatus.stop
          then NumVal.num 0 else v) = v := by
        rw [hst]
        simp
      rw [hval] at hpm
      exact mem_pushCap_val hpm
    · -- not due: the series is untouched
      cases ser with
      | spotSeries =>
        simp only [stepEvent, seriesData, seriesLast] at hv hd ⊢
        rw [(updateIntervalCallback_series _ _ _ _).1,
          heartbeatSpot_chartData, hv]
        dsimp only
        rw [if_neg hd]
        exact fun p hpm => Or.inl hpm
      | buySeries =>
        simp only [stepEvent, seriesData, seriesLast] at hv hd ⊢
        rw [(updateIntervalCallback_series _ _ _ _).2.1,
          heartbeatBuy_buyData, (heartbeatSpot_frame _ _ _).2.2.2.1,
          (heartbeatSpot_frame _ _ _).1, hv]
        dsimp only
        rw [if_neg hd]
        exact fun p hpm => Or.inl hpm
      | sellSeries =>
        simp only [stepEvent, seriesData, seriesLast] at hv hd ⊢
        rw [(updateIntervalCallback_series _ _ _ _).2.2,
          heartbeatSell_sellData, (heartbeatBuy_frame _ _ _).2.2.2.2,
          (heartbeatSpot_frame _ _ _).2.2.2.2,
          (heartbeatBuy_frame _ _ _).2.1, (heartbeatSpot_frame _ _ _).2.1,
          hv]
        dsimp only
        rw [if_neg hd]
        exact fun p hpm => Or.inl hpm

/-- C5: while a series' trading-control state is `pause`, raw ticks for
its symbol are ignored outright (the `pause` branch of both watch
handlers returns the state unchanged — last two conjuncts), the cached
last-known value is never advanced, and every point present after an
arbitrary sequence of paused events either predates the pause or carries
exactly the pre-pause cached value — the emitted series is constant at
that value throughout the pause. -/
theorem C5_paused_constant (ser : SeriesId) (evs : List HomeEvent)
    (s : HomeState) (v : NumVal)
    (hall : evs.all (pausedFor ser) = true)
    (hv : seriesLast s ser = some v) :
    seriesLast (runEvents evs s) ser = some v ∧
    (∀ p ∈ seriesData (runEvents evs s) ser,
        p ∈ seriesData s ser ∨ p.y = v) ∧
    (∀ (val : Option SpotMsg) (ts : ℕ) (s2 : HomeState),
        watchGoldSpotPrice TradingStatus.pause val ts s2 = s2) ∧
    (∀ (val : Option Gold96Msg) (ts : ℕ) (s2 : HomeState),
        watchGold96Price TradingStatus.pause val ts s2 = s2) := by
  have main : ∀ (evs2 : List HomeEvent) (s2 : HomeState),
      evs2.all (pausedFor ser) = true → seriesLast s2 ser = some v →
      seriesLast (runEvents evs2 s2) ser = some v ∧
      ∀ p ∈ seriesData (runEvents evs2 s2) ser,
        p ∈ seriesData s2 ser ∨ p.y = v := by
    intro evs2
    induction evs2 with
    | nil => exact fun s2 _ hv2 => ⟨hv2, fun p hpm => Or.inl hpm⟩
    | cons e rest ih =>
      intro s2 hall2 hv2
      rw [List.all_cons, Bool.and_eq_true] at hall2
      have hstep := paused_step ser e s2 v hall2.1 hv2
      have hrec := ih (stepEvent e s2) hall2.2 hstep.1
      refine ⟨hrec.1, ?_⟩
      intro p hpm
      rcases hrec.2 p hpm with hin | hy
      · exact hstep.2 p hin
      · exact Or.inr hy
  exact ⟨(main evs s hall hv).1, (main evs s hall hv).2,
    fun val ts s2 => rfl, fun val ts s2 => rfl⟩

/-- C5 witness: with the spot control paused, a spot tick at t = 1500 and
a heartbeat at t = 2500 leave the cache at 100 and every spot point
either pre-existing or equal to 100. -/
theorem C5_paused_constant_witness :
    ([HomeEvent.spotTick TradingStatus.pause
        (some (SpotMsg.payload (some 123))) 1500,
      HomeEvent.heartbeat TradingStatus.pause TradingStatus.online
        2500].all (pausedFor SeriesId.spotSeries) = true) ∧
    seriesLast preStopState SeriesId.spotSeries = some (NumVal.num 100) ∧
    (seriesLast (runEvents
          [HomeEvent.spotTick TradingStatus.pause
            (some (SpotMsg.payload (some 123))) 1500,
           HomeEvent.heartbeat TradingStatus.pause TradingStatus.online
            2500] preStopState) SeriesId.spotSeries
        = some (NumVal.num 100) ∧
      (∀ p ∈ seriesData (runEvents
            [HomeEvent.spotTick TradingStatus.pause
              (some (SpotMsg.payload (some 123))) 1500,
             HomeEvent.heartbeat TradingStatus.pause TradingStatus.online
              2500] preStopState) SeriesId.spotSeries,
          p ∈ seriesData preStopState SeriesId.spotSeries ∨
            p.y = NumVal.num 100) ∧
      (∀ (val : Option SpotMsg) (ts : ℕ) (s2 : HomeState),
          watchGoldSpotPrice TradingStatus.pause val ts s2 = s2) ∧
      (∀ (val : Option Gold96Msg) (ts : ℕ) (s2 : HomeState),
          watchGold96Price TradingStatus.pause val ts s2 = s2)) :=
  ⟨by decide, by decide,
    C5_paused_constant SeriesId.spotSeries
      [HomeEvent.spotTick TradingStatus.pause
        (some (SpotMsg.payload (some 123))) 1500,
       HomeEvent.heartbeat TradingStatus.pause TradingStatus.online 2500]
      preStopState (NumVal.num 100) (by decide) (by decide)⟩

/-! ## Capacity invariant -/

/-- The capacity invariant of `HomeView.vue`: every series holds at most
`maxDataPoints` points. -/
def capOK (s : HomeState) : Prop :=
  s.chartData.length ≤ maxDataPoints ∧
  s.buyData.length ≤ maxDataPoints ∧
  s.sellData.length ≤ maxDataPoints

/-- Every single event preserves the capacity invariant. -/
theorem capOK_step (e : HomeEvent) (s : HomeState) (h : capOK s) :
    capOK (stepEvent e s) := by
  obtain ⟨h1, h2, h3⟩ := h
  cases e with
  | spotTick status val ts =>
    cases status with
    | stop => exact ⟨length_pushCap_le _ h1, h2, h3⟩
    | pause => exact ⟨h1, h2, h3⟩
    | online =>
      cases val with
      | none => exact ⟨h1, h2, h3⟩
      | some m =>
        cases m with
        | raw str => exact ⟨h1, h2, h3⟩
        | payload p =>
          cases p with
          | none => exact ⟨h1, h2, h3⟩
          | some q => exact ⟨length_pushCap_le _ h1, h2, h3⟩
  | gold96Tick status val ts =>
    cases status with
    | stop => exact ⟨h1, length_pushCap_le _ h2, length_pushCap_le _ h3⟩
    | pause => exact ⟨h1, h2, h3⟩
    | online =>
      cases val with
      | none => exact ⟨h1, h2, h3⟩
      | some m =>
        cases m with
        | raw str => exact ⟨h1, h2, h3⟩
        | payload p sp =>
          cases p with
          | none => exact ⟨h1, h2, h3⟩
          | some q =>
            exact ⟨h1, length_pushCap_le _ h2, length_pushCap_le _ h3⟩
  | heartbeat sp g9 ts =>
    refine ⟨?_, ?_, ?_⟩
    · rw [show (stepEvent (HomeEvent.heartbeat sp g9 ts) s).chartData
          = (heartbeatSpot sp ts s).chartData from
          (updateIntervalCallback_series _ _ _ _).1]
      exact heartbeatSpot_length _ _ _ h1
    · rw [show (stepEvent (HomeEvent.heartbeat sp g9 ts) s).buyData
          = (heartbeatBuy g9 ts (heartbeatSpot sp ts s)).buyData from
          (updateIntervalCallback_series _ _ _ _).2.1]
      apply heartbeatBuy_length
      rw [(heartbeatSpot_frame _ _ _).1]
      exact h2
    · rw [show (stepEvent (HomeEvent.heartbeat sp g9 ts) s).sellData
          = (heartbeatSell g9 ts (heartbeatBuy g9 ts
              (heartbeatSpot sp ts s))).sellData from
          (updateIntervalCallback_series _ _ _ _).2.2]
      apply heartbeatSell_length
      rw [(heartbeatBuy_frame _ _ _).2.1, (heartbeatSpot_frame _ _ _).2.1]
      exact h3

/-- C9: from any state within capacity (in particular the initial empty
state), no sequence of ticks and heartbeats ever pushes any of the three
series past `maxDataPoints = 200` — every append and its eviction happen
in the same step, so no observer between events sees a longer series —
and the eviction is FIFO: an append at exact capacity drops precisely the
oldest point and keeps the append. -/
theorem C9_capacity_fifo (evs : List HomeEvent) (s : HomeState)
    (h : capOK s) :
    capOK (runEvents evs s) ∧
    (∀ (l : List ChartData) (q : ChartData), l.length = maxDataPoints →
        pushCap l q = l.tail ++ [q]) ∧
    (∀ (l : List ChartData) (q : ChartData), l.length ≤ maxDataPoints →
        (pushCap l q).length ≤ maxDataPoints) := by
  have main : ∀ (evs2 : List HomeEvent) (s2 : HomeState), capOK s2 →
      capOK (runEvents evs2 s2) := by
    intro evs2
    induction evs2 with
    | nil => exact fun s2 h2 => h2
    | cons e rest ih =>
      intro s2 h2
      exact ih (stepEvent e s2) (capOK_step e s2 h2)
  exact ⟨main evs s h, fun l q hl => pushCap_full q hl,
    fun l q hl => length_pushCap_le q hl⟩

/-- C9 witness: from the initial empty state, a concrete online tick and
heartbeat keep every series within capacity; at exact capacity the
oldest point is the one evicted. -/
theorem C9_capacity_fifo_witness :
    capOK initHomeState ∧
    (capOK (runEvents
        [HomeEvent.spotTick TradingStatus.online
          (some (SpotMsg.payload (some 123))) 100,
         HomeEvent.heartbeat TradingStatus.online TradingStatus.online
          1200] initHomeState) ∧
      (∀ (l : List ChartData) (q : ChartData), l.length = maxDataPoints →
          pushCap l q = l.tail ++ [q]) ∧
      (∀ (l : List ChartData) (q : ChartData), l.length ≤ maxDataPoints →
          (pushCap l q).length ≤ maxDataPoints)) :=
  ⟨⟨by decide, by decide, by decide⟩,
    C9_capacity_fifo
      [HomeEvent.spotTick TradingStatus.online
        (some (SpotMsg.payload (some 123))) 100,
       HomeEvent.heartbeat TradingStatus.online TradingStatus.online 1200]
      initHomeState ⟨by decide, by decide, by decide⟩⟩

end Xauusd
